import Mathlib

/-!
Shallow embedding of the dialogue core of `chat_companion.py`
("Warm Pipeline + Clarifier" variant).

The Python script is a Streamlit turn loop over a session state
(history, profile, stage).  Each user message triggers one synchronous
pass: light name capture, an empathy digression, a size clarifier
digression, the staged extraction pipeline
(rapport -> capital -> hours -> size), and finally the recommendation
filter over the loaded dataset.

Modelling conventions:
* Regex character classes are modelled at ASCII precision (the script
  lowercases input, and all patterns are ASCII).
* The external text-generation call is a parameter `gen : Option String`:
  `some txt` is a successful completion returning `txt`, `none` is the
  call raising a `GenerationError`.
* An uncaught Python exception ends the Streamlit script run while the
  session-state mutations already performed persist; a turn therefore
  returns the persisted state together with a `raised` flag.
* The `continue` statement on the clarifier branch is modelled by its
  evident effect of ending the turn early (see the C4 theorem: the
  literal token is not legal at module level in Python).
-/

namespace Companion

/-- Role tag of one chat history entry. -/
inductive Role
  | user
  | assistant
deriving DecidableEq

/-- Whitespace characters of the regex escape for whitespace (ASCII). -/
def isPySpace (c : Char) : Bool :=
  c = ' ' || c = '\t' || c = '\n' || c = '\r' || c = Char.ofNat 11 || c = Char.ofNat 12

/-- Word characters of the regex escape for word constituents (ASCII). -/
def isWordChar (c : Char) : Bool :=
  c.isAlphanum || c = '_'

/-- Lowercased character list of a message, as Python `str.lower` acts
on ASCII text (structural, so terms reduce by kernel computation). -/
def lowerChars (msg : String) : List Char :=
  msg.toList.map Char.toLower

/-- Substring test on char lists, modelling the Python `in` operator and
anchorless `re.search` of a literal pattern. -/
def subSearch (w : List Char) : List Char → Bool
  | [] => w.isEmpty
  | l@(_ :: rest) => w.isPrefixOf l || subSearch w rest

/-- Substring test with a string pattern. -/
def strHas (w : String) (l : List Char) : Bool :=
  subSearch w.toList l

/-- First maximal run of characters satisfying `p`, as matched by a greedy
one-or-more character-class regex under leftmost search. -/
def firstRun (p : Char → Bool) : List Char → Option (List Char)
  | [] => none
  | c :: cs => if p c then some (c :: cs.takeWhile p) else firstRun p cs

/-- Maximal runs of characters satisfying `p` (accumulator reversed). -/
def runsAux (p : Char → Bool) : List Char → List Char → List (List Char)
  | acc, [] => if acc.isEmpty then [] else [acc.reverse]
  | acc, c :: cs =>
    if p c then runsAux p (c :: acc) cs
    else if acc.isEmpty then runsAux p [] cs
    else acc.reverse :: runsAux p [] cs

/-- All maximal runs of characters satisfying `p`, in order. -/
def runs (p : Char → Bool) (l : List Char) : List (List Char) :=
  runsAux p [] l

/-- Numeric value of a list of decimal digit characters. -/
def natOfDigits (ds : List Char) : Nat :=
  ds.foldl (fun a c => a * 10 + (c.toNat - 48)) 0

/-- Interests extractor of the rapport stage: `re.findall` of alphabetic
runs of length at least three over the lowercased message. -/
def interestsOf (l : List Char) : List String :=
  ((runs Char.isAlpha l).filter (fun r => 3 ≤ r.length)).map (fun r => String.mk r)

/-- Result of the capital-stage extraction: a parsed amount, no match of
the monetary pattern, or an uncaught `ValueError` from `int("")`. -/
inductive CapResult
  | ok (n : Nat)
  | noMatch
  | err
deriving DecidableEq

/-- Capital extractor: `re.search` of an optional dollar sign and a
one-or-more run over digits and commas, the group parsed by `int` after
the commas are stripped.  A group consisting of commas only makes `int`
raise `ValueError`. -/
def capitalExtract (l : List Char) : CapResult :=
  match firstRun (fun c => c.isDigit || c = ',') l with
  | none => .noMatch
  | some run =>
    let ds := run.filter (fun c => c ≠ ',')
    if ds.isEmpty then .err else .ok (natOfDigits ds)

/-- Search for a literal less-than sign followed by optional whitespace and
the digit five, as in the passive-hours pattern. -/
def ltFiveSearch : List Char → Bool
  | [] => false
  | c :: rest =>
    (c = '<' && ((rest.dropWhile isPySpace).head? = some '5')) || ltFiveSearch rest

/-- Search for the word `five`, optional whitespace, then `hours`. -/
def fiveHoursSearch : List Char → Bool
  | [] => false
  | l@(_ :: rest) =>
    ("five".toList.isPrefixOf l
      && "hours".toList.isPrefixOf ((l.drop 4).dropWhile isPySpace))
    || fiveHoursSearch rest

/-- Semi-absentee trigger of the hours stage: `semi`, `10-?20`, or
`part[- ]?time`. -/
def semiTrig (l : List Char) : Bool :=
  strHas "semi" l || strHas "10-20" l || strHas "1020" l
    || strHas "part-time" l || strHas "part time" l || strHas "parttime" l

/-- Passive trigger of the hours stage: `passive`, `<` + whitespace + `5`,
or `five` + whitespace + `hours`. -/
def passiveTrig (l : List Char) : Bool :=
  strHas "passive" l || ltFiveSearch l || fiveHoursSearch l

/-- Hours extractor: keyword classification with `owner` as the default. -/
def hoursOf (l : List Char) : String :=
  if semiTrig l then "semi"
  else if passiveTrig l then "passive"
  else "owner"

/-- Word boundary to the left of a match position. -/
def boundaryBefore : Option Char → Bool
  | none => true
  | some c => !isWordChar c

/-- Word boundary to the right of a match. -/
def boundaryAfter (l : List Char) : Bool :=
  match l.head? with
  | none => true
  | some c => !isWordChar c

/-- Whole-word search: an occurrence of `w` flanked by word boundaries,
scanning left to right with the previous character threaded through. -/
def wordSearchAux (w : List Char) : Option Char → List Char → Bool
  | _, [] => false
  | prev, l@(c :: rest) =>
    (boundaryBefore prev && w.isPrefixOf l && boundaryAfter (l.drop w.length))
      || wordSearchAux w (some c) rest

/-- Whole-word search from the start of the text. -/
def wordIn (w : String) (l : List Char) : Bool :=
  wordSearchAux w.toList none l

/-- Size extractor `capture_size`: whole-word `small`; `large` or `big`;
`either`, `any` or `no preference`; otherwise no match. -/
def capture_size (l : List Char) : Option String :=
  if wordIn "small" l then some "small"
  else if wordIn "large" l || wordIn "big" l then some "large"
  else if wordIn "either" l || wordIn "any" l || wordIn "no preference" l then some "either"
  else none

/-- ASCII apostrophe. -/
def apos : Char := Char.ofNat 39

/-- Alternatives of the self-introduction keyword group (the bracket of
the pattern makes at most one alternative viable at a position). -/
def introAlts : List (List Char) :=
  [['i', apos, 'm'], ['i', ' ', 'm'], ['i', 'm'], "my name is".toList]

/-- After an introduction keyword: one-or-more whitespace then the
captured one-or-more alphabetic group. -/
def wsThenAlpha (l : List Char) : Option (List Char) :=
  match l with
  | [] => none
  | c :: rest =>
    if isPySpace c then
      let t := rest.dropWhile isPySpace
      let nm := t.takeWhile Char.isAlpha
      if nm.isEmpty then none else some nm
    else none

/-- Name-capture scan over the lowercased message (the script matches
case-insensitively): word boundary, an introduction keyword, whitespace,
then the captured alphabetic token. -/
def nameScanAux : Option Char → List Char → Option (List Char)
  | _, [] => none
  | prev, l@(c :: rest) =>
    if boundaryBefore prev then
      match introAlts.find? (fun w => w.isPrefixOf l) with
      | some w =>
        match wsThenAlpha (l.drop w.length) with
        | some nm => some nm
        | none => nameScanAux (some c) rest
      | none => nameScanAux (some c) rest
    else nameScanAux (some c) rest

/-- Python `str.title` on a single lowercase alphabetic token. -/
def title1 (nm : List Char) : String :=
  match nm with
  | [] => ""
  | c :: rest => String.mk (c.toUpper :: rest)

/-- Empathy digression trigger: any anxiety keyword as a substring. -/
def fearTrig (l : List Char) : Bool :=
  strHas "scared" l || strHas "nervous" l || strHas "worried" l || strHas "fear" l

/-- Split on newlines: a dot in the clarifier pattern does not cross a
newline, so the ordered search runs per newline-free segment. -/
def splitNL : List Char → List (List Char)
  | [] => [[]]
  | c :: rest =>
    if c = '\n' then [] :: splitNL rest
    else
      match splitNL rest with
      | [] => [[c]]
      | s :: ss => (c :: s) :: ss

/-- Suffix just after the first occurrence of `w`. -/
def dropAfterFirst (w : List Char) : List Char → Option (List Char)
  | [] => none
  | l@(_ :: rest) =>
    if w.isPrefixOf l then some (l.drop w.length) else dropAfterFirst w rest

/-- Keyword alternatives of the clarifier pattern. -/
def clarifierKws : List (List Char) :=
  ["benefit".toList, "advantage".toList, "difference".toList]

/-- Suffix just after the earliest occurrence of any keyword (the
alternatives never overlap in a text, so earliest start is earliest end). -/
def dropAfterAny (ws : List (List Char)) : List Char → Option (List Char)
  | [] => none
  | l@(_ :: rest) =>
    match ws.find? (fun w => w.isPrefixOf l) with
    | some w => some (l.drop w.length)
    | none => dropAfterAny ws rest

/-- Clarifier pattern on one newline-free segment: a keyword, then
`small`, then `large`, in order. -/
def segTrig (l : List Char) : Bool :=
  match dropAfterAny clarifierKws l with
  | some r1 =>
    match dropAfterFirst "small".toList r1 with
    | some r2 => (dropAfterFirst "large".toList r2).isSome
    | none => false
  | none => false

/-- Size clarifier trigger: the benefit/advantage/difference ..
small .. large pattern, searched in the lowercased message. -/
def clarifierTrig (l : List Char) : Bool :=
  (splitNL l).any segTrig

/-- Result of the `money` helper: a returned string or an uncaught
`ValueError` from `float`. -/
inductive MoneyRes
  | val (s : String)
  | raised
deriving DecidableEq

/-- Characters kept by the `money` helper: digits and decimal points. -/
def moneyDigits (s : String) : List Char :=
  s.toList.filter (fun c => c.isDigit || c = '.')

/-- Python `float` on a nonempty string of digits and dots: defined when
there is at most one dot and at least one digit; the value is returned as
numerator and power-of-ten scale. -/
def pyFloatParts (num : List Char) : Option (Nat × Nat) :=
  if 1 < num.count '.' then none
  else
    let ds := num.filter (fun c => c ≠ '.')
    if ds.isEmpty then none
    else some (natOfDigits ds, (num.dropWhile (fun c => c ≠ '.')).length - 1)

/-- Insert thousands separators walking a reversed digit list. -/
def commasRev : Nat → List Char → List Char
  | _, [] => []
  | i, c :: rest =>
    if i ≠ 0 && i % 3 = 0 then ',' :: c :: commasRev (i + 1) rest
    else c :: commasRev (i + 1) rest

/-- Decimal rendering of a natural number with thousands separators. -/
def withCommas (n : Nat) : String :=
  String.mk (commasRev 0 (toString n).toList.reverse).reverse

/-- Round `n / 10 ^ k` to the nearest integer, ties to even, as the
zero-decimals float format does. -/
def roundHalfEven (n k : Nat) : Nat :=
  let d := 10 ^ k
  let q := n / d
  let r := n % d
  if 2 * r < d then q
  else if d < 2 * r then q + 1
  else if q % 2 = 0 then q else q + 1

/-- Money helper of the script: strip every character other than digits
and dots; empty residue or a zero value yields `N/A`; a residue `float`
cannot parse raises; otherwise a dollar amount with separators and no
decimal places. -/
def money (valStr : String) : MoneyRes :=
  let num := moneyDigits valStr
  if num.isEmpty then .val "N/A"
  else
    match pyFloatParts num with
    | none => .raised
    | some nk =>
      if nk.1 = 0 then .val "N/A"
      else .val ("$" ++ withCommas (roundHalfEven nk.1 nk.2))

/-- Digits-only parse used by Python `int` on a trimmed token. -/
def digitsOnly? (ds : List Char) : Option Nat :=
  if ds.isEmpty then none
  else if ds.all Char.isDigit then some (natOfDigits ds) else none

/-- Python `int` on an optional cell rendered as text: whitespace
trimmed, optional sign, then digits; anything else (or a missing cell)
raises and is reported as `none`. -/
def parsePyInt (o : Option String) : Option Int :=
  match o with
  | none => none
  | some s =>
    let t := ((s.toList.dropWhile isPySpace).reverse.dropWhile isPySpace).reverse
    match t with
    | [] => none
    | c :: rest =>
      if c = '-' then (digitsOnly? rest).map (fun n => -(n : Int))
      else if c = '+' then (digitsOnly? rest).map (fun n => (n : Int))
      else (digitsOnly? t).map (fun n => (n : Int))

/-- Size bucket of a row: at least one hundred open units is `large`,
fewer is `small`, an unparseable count is `unknown`. -/
def size_bucket (o : Option String) : String :=
  match parsePyInt o with
  | some n => if 100 ≤ n then "large" else "small"
  | none => "unknown"

/-- One dataset row; `none` models a missing (NaN) cell. -/
structure Listing where
  name : String
  industry : Option String
  summary : Option String
  cashRequired : Option String
  franchiseFee : Option String
  unitsOpen : Option String
  semiAbsentee : Option String
  passiveFranchise : Option String
  url : Option String
deriving DecidableEq

/-- The accumulating user profile of one conversation. -/
structure Profile where
  name : Option String := none
  interests : List String := []
  capital : Option Nat := none
  hours : Option String := none
  size : Option String := none
deriving DecidableEq

/-- Case-insensitive containment of any interest keyword in an optional
text field; a missing cell never matches (the `na=False` flag). -/
def optContains (ws : List String) (field : Option String) : Bool :=
  match field with
  | none => false
  | some t => ws.any (fun w => subSearch w.toList (lowerChars t))

/-- Interests clause: the industry or the business summary contains one
of the interest keywords. -/
def interestClause (ws : List String) (r : Listing) : Bool :=
  optContains ws r.industry || optContains ws r.summary

/-- First numeral run of the cash-required text (a digit, then digits and
commas), with commas stripped. -/
def cashLow (r : Listing) : Option Nat :=
  match r.cashRequired with
  | none => none
  | some t =>
    match t.toList.dropWhile (fun c => !c.isDigit) with
    | [] => none
    | c :: rest =>
      some (natOfDigits ((c :: rest.takeWhile (fun c => c.isDigit || c = ',')).filter (fun c => c ≠ ',')))

/-- Capital clause: the parsed minimum cash requirement is at most the
stated capital; rows with no parsable numeral are excluded. -/
def capClause (cap : Nat) (r : Listing) : Bool :=
  match cashLow r with
  | some v => decide (v ≤ cap)
  | none => false

/-- Semi-absentee eligibility clause. -/
def semiClause (r : Listing) : Bool :=
  r.semiAbsentee == some "Yes"

/-- Passive eligibility clause. -/
def passiveClause (r : Listing) : Bool :=
  r.passiveFranchise == some "Yes"

/-- Size clause: the row's bucket equals the stated preference (an unset
preference equals no bucket, exactly as the comparison to `None`). -/
def sizeClause (sz : Option String) (r : Listing) : Bool :=
  match sz with
  | some v => size_bucket r.unitsOpen == v
  | none => false

/-- Fixed result cap of the recommendation filter. -/
def TOP_K : Nat := 6

/-- Active predicate clauses of the recommendation filter, in the fixed
order the script applies them; a clause is present exactly when its
profile field is set and non-default (Python truthiness: a capital of
zero is falsy and deactivates the capital clause). -/
def activeClauses (p : Profile) : List (Listing → Bool) :=
  (if p.interests.isEmpty then [] else [interestClause p.interests])
  ++ (match p.capital with
      | some c => if c = 0 then [] else [capClause c]
      | none => [])
  ++ (if p.hours == some "semi" then [semiClause]
      else if p.hours == some "passive" then [passiveClause]
      else [])
  ++ (if p.size == some "either" then [] else [sizeClause p.size])

/-- Apply a list of predicate clauses as successive row filters. -/
def applyClauses (cs : List (Listing → Bool)) (rows : List Listing) : List Listing :=
  cs.foldl (fun r c => r.filter c) rows

/-- The filtered dataset for a profile, before the cap. -/
def filterListings (p : Profile) (df : List Listing) : List Listing :=
  applyClauses (activeClauses p) df

/-- The recommendation filter: active clauses then the top-K cap in the
dataset's natural row order. -/
def recommendRows (p : Profile) (df : List Listing) : List Listing :=
  (filterListings p df).take TOP_K

/-- Session state of one conversation. -/
structure State where
  history : List (Role × String)
  profile : Profile
  stage : String
deriving DecidableEq

/-- Result of one user turn: the persisted session state and whether the
script run ended with an uncaught exception. -/
structure Turn where
  state : State
  raised : Bool
deriving DecidableEq

/-- Opening greeting. -/
def greet : String :=
  "Hey there! 👋 How are you doing today? I’m excited you’re exploring franchise ownership. **What are your primary interests?** _(e.g., fitness, coffee, home services, golf…)_"

/-- Reassurance message of the empathy digression. -/
def reassureMsg : String :=
  "Totally understandable—taking the first step can feel daunting. I’m here to make the process clear and comfortable. Let’s go at your pace. 😊"

/-- Two-part explanation of the size clarifier. -/
def explainMsg : String :=
  "**Small systems**\n• Lower entry cost on average\n• Flexibility to influence local strategy & culture\n• Faster decision cycles but lighter national marketing/support\n\n**Large systems**\n• Robust training, peer network, national ad fund\n• Strong brand recognition and lender familiarity\n• Higher startup costs, stricter standards"

/-- Re-ask of the small/large/either question after the clarifier. -/
def followMsg : String :=
  "Given that overview, which feels like a better fit for you—**small**, **large**, or **either**?"

/-- Capital question emitted when the rapport stage advances. -/
def askCapital : String :=
  "To match brands to your budget, roughly **how much liquid capital** could you invest upfront?"

/-- Hours question emitted when the capital stage advances. -/
def askHours : String :=
  "Great. How involved would you like to be once it’s running?\n*• Full‑time owner‑operator*\n*• Semi‑absentee (≈10‑20 hrs/week)*\n*• Mostly passive (< 5 hrs/week)*"

/-- Retry message of the capital stage. -/
def retryCapital : String :=
  "No worries—an approximate number or range is fine whenever you’re ready."

/-- Size question emitted when the hours stage advances. -/
def askSize : String :=
  "Do you lean toward a **large, established franchise system** with extensive support, or a **smaller, more entrepreneurial system** that’s often lower cost and flexible? Feel free to answer: **small**, **large**, or **either**."

/-- Re-prompt of the size stage. -/
def repromptSize : String :=
  "Just let me know if you prefer **small**, **large**, or **either**."

/-- Fixed no-matches message of the recommend phase. -/
def noMatchMsg : String :=
  "It seems no brands tick every box. Would you like to broaden your budget, adjust hours, or explore a different industry niche?"

/-- Append one assistant message to the history. -/
def appendBot (s : State) (m : String) : State :=
  { s with history := s.history ++ [(Role.assistant, m)] }

/-- Python truthiness of the optional name field. -/
def nameFalsy : Option String → Bool
  | none => true
  | some n => n.isEmpty

/-- Light name capture: when the name is unset, scan for the
self-introduction pattern and record the captured token title-cased. -/
def applyNameCapture (s : State) (l : List Char) : State :=
  if nameFalsy s.profile.name then
    match nameScanAux none l with
    | some nm => { s with profile := { s.profile with name := some (title1 nm) } }
    | none => s
  else s

/-- Result of the staged extraction block: the updated state, or the
state persisted when the capital parse raised. -/
inductive PipeRes
  | ok (s : State)
  | exn (s : State)
deriving DecidableEq

/-- The staged extraction block, dispatching on the stage read at the
start of the turn. -/
def pipelineStep (s : State) (l : List Char) : PipeRes :=
  if s.stage = "rapport" then
    .ok (appendBot { s with profile := { s.profile with interests := interestsOf l }, stage := "capital" } askCapital)
  else if s.stage = "capital" then
    match capitalExtract l with
    | .ok n => .ok (appendBot { s with profile := { s.profile with capital := some n }, stage := "hours" } askHours)
    | .noMatch => .ok (appendBot s retryCapital)
    | .err => .exn s
  else if s.stage = "hours" then
    .ok (appendBot { s with profile := { s.profile with hours := some (hoursOf l) }, stage := "size" } askSize)
  else if s.stage = "size" then
    match capture_size l with
    | some v => .ok { s with profile := { s.profile with size := some v }, stage := "recommend" }
    | none => .ok (appendBot s repromptSize)
  else .ok s

/-- The recommend block: filter the dataset; an empty result emits the
fixed no-matches message; otherwise the generation call either returns
the composed text or raises, aborting the run before the stage advance. -/
def recommendPhase (df : List Listing) (gen : Option String) (s : State) : Turn :=
  let top := recommendRows s.profile df
  if top.isEmpty then ⟨{ appendBot s noMatchMsg with stage := "done" }, false⟩
  else
    match gen with
    | some txt => ⟨{ appendBot s txt with stage := "done" }, false⟩
    | none => ⟨s, true⟩

/-- Fallback size capture on turns whose pipeline did not reach the
recommend phase: while the size field is unset, any turn may set it. -/
def fallbackSize (s : State) (l : List Char) : State :=
  if s.profile.size = none then
    match capture_size l with
    | some v => { s with profile := { s.profile with size := some v } }
    | none => s
  else s

/-- Digression prefix of a turn: append the user message, run the light
name capture, then the empathy responder. -/
def digress (s0 : State) (msg : String) : State :=
  let l := (lowerChars msg)
  let s2 := applyNameCapture { s0 with history := s0.history ++ [(Role.user, msg)] } l
  if fearTrig l then appendBot s2 reassureMsg else s2

/-- Remainder of a turn after the digressions: the clarifier (which
consumes the turn), then the staged pipeline, then either the recommend
phase or the fallback size capture. -/
def stepRest (df : List Listing) (gen : Option String) (s3 : State) (l : List Char) : Turn :=
  if s3.stage = "size" ∧ clarifierTrig l then
    ⟨{ s3 with history := s3.history ++ [(Role.assistant, explainMsg), (Role.assistant, followMsg)] }, false⟩
  else
    match pipelineStep s3 l with
    | .exn s4 => ⟨s4, true⟩
    | .ok s4 =>
      if s4.stage = "recommend" then recommendPhase df gen s4
      else ⟨fallbackSize s4 l, false⟩

/-- One user turn of the script: the digressions, then the rest. -/
def step (df : List Listing) (gen : Option String) (s0 : State) (msg : String) : Turn :=
  stepRest df gen (digress s0 msg) (lowerChars msg)

/-- Session state at the start of a conversation, after the greeting. -/
def initState : State :=
  { history := [(Role.assistant, greet)], profile := {}, stage := "rapport" }

/-- State carried by either pipeline outcome. -/
def PipeRes.st : PipeRes → State
  | .ok s => s
  | .exn s => s

/-- Reachability invariant tying the stage to the not-yet-collected
fields: a stage's own field, and every later pipeline field, is still
unset while that stage is pending. -/
def Inv (s : State) : Prop :=
  (s.stage = "rapport" → s.profile.interests = [] ∧ s.profile.capital = none ∧ s.profile.hours = none)
  ∧ (s.stage = "capital" → s.profile.capital = none ∧ s.profile.hours = none)
  ∧ (s.stage = "hours" → s.profile.hours = none)

instance (s : State) : Decidable (Inv s) := by
  unfold Inv
  infer_instance

/-- Sample dataset row: a coffee franchise. -/
def rowCoffee : Listing :=
  { name := "Bean Dream", industry := some "Coffee", summary := some "A coffee shop franchise",
    cashRequired := some "$40,000 - $95,000", franchiseFee := some "$25,000", unitsOpen := some "120",
    semiAbsentee := some "Yes", passiveFranchise := some "No", url := some "beandream.example" }

/-- Sample dataset row: a fitness franchise. -/
def rowGym : Listing :=
  { name := "Gym Co", industry := some "Fitness", summary := some "A gym you can own",
    cashRequired := some "$80,000", franchiseFee := some "$30,000", unitsOpen := some "40",
    semiAbsentee := some "No", passiveFranchise := some "No", url := some "gymco.example" }

/-- Sample two-row dataset. -/
def dfW : List Listing := [rowCoffee, rowGym]

/-- Sample state waiting at the capital stage. -/
def sCap : State := { history := [], profile := {}, stage := "capital" }

/-- Sample filled profile waiting for the size answer. -/
def pSize : Profile :=
  { name := some "Sam", interests := ["coffee"], capital := some 50000,
    hours := some "owner", size := none }

/-- Sample state waiting at the size stage. -/
def sSize : State := { history := [], profile := pSize, stage := "size" }

/-- Sample completed profile whose capital is below every sample row's
cash requirement. -/
def pTight : Profile :=
  { interests := [], capital := some 5000, hours := some "owner", size := some "either" }

/-- Sample state entering the recommend phase with the tight profile. -/
def sTight : State := { history := [], profile := pTight, stage := "recommend" }

/-- Sample completed profile matching the coffee row. -/
def pCoffee : Profile :=
  { interests := ["coffee"], capital := some 50000, hours := some "owner", size := some "either" }

/-- Sample state waiting at the hours stage with earlier fields set. -/
def sHours : State :=
  { history := [],
    profile := { name := some "Bob", interests := ["coffee"], capital := some 50000 },
    stage := "hours" }

/-! ## Helper lemmas -/

theorem nameCapture_noop (s : State) (l : List Char)
    (h : nameScanAux none l = none) : applyNameCapture s l = s := by
  unfold applyNameCapture
  rw [h]
  split <;> rfl

theorem fallback_noop (s : State) (l : List Char)
    (h : s.profile.size = none → capture_size l = none) : fallbackSize s l = s := by
  unfold fallbackSize
  split
  · rename_i h'
    rw [h h']
  · rfl

theorem dig_noop (s : State) (msg : String)
    (hname : nameScanAux none (lowerChars msg) = none)
    (hfear : fearTrig (lowerChars msg) = false) :
    digress s msg = { s with history := s.history ++ [(Role.user, msg)] } := by
  simp only [digress]
  rw [nameCapture_noop _ _ hname, hfear]
  simp only [Bool.false_eq_true, if_false]

theorem step_no_digression (df : List Listing) (gen : Option String) (s : State) (msg : String)
    (hname : nameScanAux none (lowerChars msg) = none)
    (hfear : fearTrig (lowerChars msg) = false)
    (hnoclar : ¬(s.stage = "size" ∧ clarifierTrig (lowerChars msg))) :
    step df gen s msg =
      (match pipelineStep { s with history := s.history ++ [(Role.user, msg)] } (lowerChars msg) with
       | .exn s4 => ⟨s4, true⟩
       | .ok s4 =>
         if s4.stage = "recommend" then recommendPhase df gen s4
         else ⟨fallbackSize s4 (lowerChars msg), false⟩) := by
  simp only [step, stepRest]
  rw [dig_noop s msg hname hfear]
  rw [if_neg hnoclar]

theorem anc_stage (s : State) (l : List Char) : (applyNameCapture s l).stage = s.stage := by
  unfold applyNameCapture
  split
  · split <;> rfl
  · rfl

theorem anc_interests (s : State) (l : List Char) :
    (applyNameCapture s l).profile.interests = s.profile.interests := by
  unfold applyNameCapture
  split
  · split <;> rfl
  · rfl

theorem anc_capital (s : State) (l : List Char) :
    (applyNameCapture s l).profile.capital = s.profile.capital := by
  unfold applyNameCapture
  split
  · split <;> rfl
  · rfl

theorem anc_hours (s : State) (l : List Char) :
    (applyNameCapture s l).profile.hours = s.profile.hours := by
  unfold applyNameCapture
  split
  · split <;> rfl
  · rfl

theorem anc_size (s : State) (l : List Char) :
    (applyNameCapture s l).profile.size = s.profile.size := by
  unfold applyNameCapture
  split
  · split <;> rfl
  · rfl

theorem anc_name_kept (s : State) (l : List Char) (n : String)
    (h : s.profile.name = some n) (he : n.isEmpty = false) :
    (applyNameCapture s l).profile.name = some n := by
  unfold applyNameCapture
  have hf : nameFalsy s.profile.name = false := by rw [h]; simpa [nameFalsy] using he
  rw [hf]
  simp only [Bool.false_eq_true, if_false]
  exact h

theorem dig_stage (s : State) (msg : String) : (digress s msg).stage = s.stage := by
  simp only [digress]
  split
  · exact anc_stage _ _
  · exact anc_stage _ _

theorem dig_interests (s : State) (msg : String) :
    (digress s msg).profile.interests = s.profile.interests := by
  simp only [digress]
  split
  · exact anc_interests _ _
  · exact anc_interests _ _

theorem dig_capital (s : State) (msg : String) :
    (digress s msg).profile.capital = s.profile.capital := by
  simp only [digress]
  split
  · exact anc_capital _ _
  · exact anc_capital _ _

theorem dig_hours (s : State) (msg : String) :
    (digress s msg).profile.hours = s.profile.hours := by
  simp only [digress]
  split
  · exact anc_hours _ _
  · exact anc_hours _ _

theorem dig_size (s : State) (msg : String) :
    (digress s msg).profile.size = s.profile.size := by
  simp only [digress]
  split
  · exact anc_size _ _
  · exact anc_size _ _

theorem dig_name_kept (s : State) (msg : String) (n : String)
    (h : s.profile.name = some n) (he : n.isEmpty = false) :
    (digress s msg).profile.name = some n := by
  simp only [digress]
  split
  · exact anc_name_kept _ _ _ h he
  · exact anc_name_kept _ _ _ h he

theorem dig_inv (s : State) (msg : String) (hi : Inv s) : Inv (digress s msg) := by
  obtain ⟨hr, hc, hh⟩ := hi
  refine ⟨?_, ?_, ?_⟩ <;> intro hst <;> rw [dig_stage] at hst
  · exact ⟨by rw [dig_interests]; exact (hr hst).1,
      by rw [dig_capital]; exact (hr hst).2.1,
      by rw [dig_hours]; exact (hr hst).2.2⟩
  · exact ⟨by rw [dig_capital]; exact (hc hst).1, by rw [dig_hours]; exact (hc hst).2⟩
  · rw [dig_hours]; exact hh hst

theorem capital_ne_rapport : ("capital" : String) ≠ "rapport" := by decide

theorem capital_ne_hours : ("capital" : String) ≠ "hours" := by decide

theorem hours_ne_rapport : ("hours" : String) ≠ "rapport" := by decide

theorem hours_ne_capital : ("hours" : String) ≠ "capital" := by decide

theorem size_ne_rapport : ("size" : String) ≠ "rapport" := by decide

theorem size_ne_capital : ("size" : String) ≠ "capital" := by decide

theorem size_ne_hours : ("size" : String) ≠ "hours" := by decide

theorem rec_ne_rapport : ("recommend" : String) ≠ "rapport" := by decide

theorem rec_ne_capital : ("recommend" : String) ≠ "capital" := by decide

theorem rec_ne_hours : ("recommend" : String) ≠ "hours" := by decide

theorem done_ne_rapport : ("done" : String) ≠ "rapport" := by decide

theorem done_ne_capital : ("done" : String) ≠ "capital" := by decide

theorem done_ne_hours : ("done" : String) ≠ "hours" := by decide

theorem capital_ne_recommend : ("capital" : String) ≠ "recommend" := by decide

theorem size_ne_recommend : ("size" : String) ≠ "recommend" := by decide

theorem rec_ne_size : ("recommend" : String) ≠ "size" := by decide

theorem pipe_name (s : State) (l : List Char) :
    (pipelineStep s l).st.profile.name = s.profile.name := by
  unfold pipelineStep
  split_ifs <;> first | rfl | (split <;> rfl)

theorem pipe_st_ne_rapport (s : State) (l : List Char) :
    (pipelineStep s l).st.stage ≠ "rapport" := by
  unfold pipelineStep
  split_ifs with h1 h2 h3 h4
  · exact capital_ne_rapport
  · split
    · exact hours_ne_rapport
    · exact h1
    · exact h1
  · exact size_ne_rapport
  · split
    · exact rec_ne_rapport
    · exact h1
  · exact h1

theorem pipe_interests (s : State) (l : List Char) (h : s.stage ≠ "rapport") :
    (pipelineStep s l).st.profile.interests = s.profile.interests := by
  unfold pipelineStep
  split_ifs <;> first | rfl | (split <;> rfl) | (exact absurd (by assumption) h)

theorem pipe_capital (s : State) (l : List Char) (h : s.stage ≠ "capital") :
    (pipelineStep s l).st.profile.capital = s.profile.capital := by
  unfold pipelineStep
  split_ifs <;> first | rfl | (split <;> rfl) | (exact absurd (by assumption) h)

theorem pipe_hours (s : State) (l : List Char) (h : s.stage ≠ "hours") :
    (pipelineStep s l).st.profile.hours = s.profile.hours := by
  unfold pipelineStep
  split_ifs <;> first | rfl | (split <;> rfl) | (exact absurd (by assumption) h)

theorem pipe_size (s : State) (l : List Char) (h : s.stage ≠ "size") :
    (pipelineStep s l).st.profile.size = s.profile.size := by
  unfold pipelineStep
  split_ifs <;> first | rfl | (split <;> rfl) | (exact absurd (by assumption) h)

theorem pipe_inv (s : State) (l : List Char) (hi : Inv s) : Inv (pipelineStep s l).st := by
  obtain ⟨hr, hc, hh⟩ := hi
  unfold pipelineStep
  split_ifs with h1 h2 h3 h4
  · exact ⟨fun hst => absurd hst capital_ne_rapport,
      fun _ => ⟨(hr h1).2.1, (hr h1).2.2⟩,
      fun hst => absurd hst capital_ne_hours⟩
  · split
    · exact ⟨fun hst => absurd hst hours_ne_rapport, fun hst => absurd hst hours_ne_capital,
        fun _ => (hc h2).2⟩
    · exact ⟨hr, hc, hh⟩
    · exact ⟨hr, hc, hh⟩
  · exact ⟨fun hst => absurd hst size_ne_rapport, fun hst => absurd hst size_ne_capital,
      fun hst => absurd hst size_ne_hours⟩
  · split
    · exact ⟨fun hst => absurd hst rec_ne_rapport, fun hst => absurd hst rec_ne_capital,
        fun hst => absurd hst rec_ne_hours⟩
    · exact ⟨hr, hc, hh⟩
  · exact ⟨hr, hc, hh⟩

theorem rp_profile (df : List Listing) (gen : Option String) (s : State) :
    (recommendPhase df gen s).state.profile = s.profile := by
  simp only [recommendPhase]
  split
  · rfl
  · cases gen <;> rfl

theorem rp_stage (df : List Listing) (gen : Option String) (s : State) :
    (recommendPhase df gen s).state.stage = "done"
      ∨ (recommendPhase df gen s).state.stage = s.stage := by
  simp only [recommendPhase]
  split
  · exact Or.inl rfl
  · cases gen
    · exact Or.inr rfl
    · exact Or.inl rfl

theorem rp_inv (df : List Listing) (gen : Option String) (s : State) (hi : Inv s) :
    Inv (recommendPhase df gen s).state := by
  simp only [recommendPhase]
  split
  · exact ⟨fun hst => absurd hst done_ne_rapport, fun hst => absurd hst done_ne_capital,
      fun hst => absurd hst done_ne_hours⟩
  · cases gen
    · exact hi
    · exact ⟨fun hst => absurd hst done_ne_rapport, fun hst => absurd hst done_ne_capital,
        fun hst => absurd hst done_ne_hours⟩

theorem fb_stage (s : State) (l : List Char) : (fallbackSize s l).stage = s.stage := by
  unfold fallbackSize
  split
  · split <;> rfl
  · rfl

theorem fb_interests (s : State) (l : List Char) :
    (fallbackSize s l).profile.interests = s.profile.interests := by
  unfold fallbackSize
  split
  · split <;> rfl
  · rfl

theorem fb_capital (s : State) (l : List Char) :
    (fallbackSize s l).profile.capital = s.profile.capital := by
  unfold fallbackSize
  split
  · split <;> rfl
  · rfl

theorem fb_hours (s : State) (l : List Char) :
    (fallbackSize s l).profile.hours = s.profile.hours := by
  unfold fallbackSize
  split
  · split <;> rfl
  · rfl

theorem fb_name (s : State) (l : List Char) :
    (fallbackSize s l).profile.name = s.profile.name := by
  unfold fallbackSize
  split
  · split <;> rfl
  · rfl

theorem fb_size_kept (s : State) (l : List Char) (v : String)
    (h : s.profile.size = some v) : (fallbackSize s l).profile.size = some v := by
  unfold fallbackSize
  rw [if_neg (by simp [h])]
  exact h

theorem fb_inv (s : State) (l : List Char) (hi : Inv s) : Inv (fallbackSize s l) := by
  obtain ⟨hr, hc, hh⟩ := hi
  refine ⟨?_, ?_, ?_⟩ <;> intro hst <;> rw [fb_stage] at hst
  · exact ⟨by rw [fb_interests]; exact (hr hst).1,
      by rw [fb_capital]; exact (hr hst).2.1,
      by rw [fb_hours]; exact (hr hst).2.2⟩
  · exact ⟨by rw [fb_capital]; exact (hc hst).1, by rw [fb_hours]; exact (hc hst).2⟩
  · rw [fb_hours]; exact hh hst

theorem sr_ne_rapport (df : List Listing) (gen : Option String) (s3 : State) (l : List Char) :
    (stepRest df gen s3 l).state.stage ≠ "rapport" := by
  unfold stepRest
  split
  · rename_i h
    intro hc
    have hc' : s3.stage = "rapport" := hc
    rw [h.1] at hc'
    exact size_ne_rapport hc'
  · split
    · rename_i s4 heq
      have := pipe_st_ne_rapport s3 l
      rw [heq] at this
      exact this
    · rename_i s4 heq
      split_ifs with hrec
      · rcases rp_stage df gen s4 with hd | hs
        · rw [hd]; exact done_ne_rapport
        · rw [hs, hrec]; exact rec_ne_rapport
      · rw [fb_stage]
        have := pipe_st_ne_rapport s3 l
        rw [heq] at this
        exact this

theorem sr_inv (df : List Listing) (gen : Option String) (s3 : State) (l : List Char)
    (hi : Inv s3) : Inv (stepRest df gen s3 l).state := by
  unfold stepRest
  split
  · exact hi
  · split
    · rename_i s4 heq
      have := pipe_inv s3 l hi
      rw [heq] at this
      exact this
    · rename_i s4 heq
      have h4 : Inv s4 := by
        have := pipe_inv s3 l hi
        rw [heq] at this
        exact this
      split_ifs
      · exact rp_inv _ _ _ h4
      · exact fb_inv _ _ h4

theorem sr_interests (df : List Listing) (gen : Option String) (s3 : State) (l : List Char)
    (h : s3.stage ≠ "rapport") :
    (stepRest df gen s3 l).state.profile.interests = s3.profile.interests := by
  unfold stepRest
  split
  · rfl
  · split
    · rename_i s4 heq
      have := pipe_interests s3 l h
      rw [heq] at this
      exact this
    · rename_i s4 heq
      have h4 : s4.profile.interests = s3.profile.interests := by
        have := pipe_interests s3 l h
        rw [heq] at this
        exact this
      split_ifs
      · rw [rp_profile]; exact h4
      · rw [fb_interests]; exact h4

theorem sr_name (df : List Listing) (gen : Option String) (s3 : State) (l : List Char) :
    (stepRest df gen s3 l).state.profile.name = s3.profile.name := by
  unfold stepRest
  split
  · rfl
  · split
    · rename_i s4 heq
      have := pipe_name s3 l
      rw [heq] at this
      exact this
    · rename_i s4 heq
      have h4 : s4.profile.name = s3.profile.name := by
        have := pipe_name s3 l
        rw [heq] at this
        exact this
      split_ifs
      · rw [rp_profile]; exact h4
      · rw [fb_name]; exact h4

theorem sr_capital (df : List Listing) (gen : Option String) (s3 : State) (l : List Char)
    (hi : Inv s3) (c : Nat) (hc : s3.profile.capital = some c) :
    (stepRest df gen s3 l).state.profile.capital = some c := by
  have hnc : s3.stage ≠ "capital" := by
    intro hst
    rw [(hi.2.1 hst).1] at hc
    cases hc
  unfold stepRest
  split
  · exact hc
  · split
    · rename_i s4 heq
      have := pipe_capital s3 l hnc
      rw [heq] at this
      exact this.trans hc
    · rename_i s4 heq
      have h4 : s4.profile.capital = some c := by
        have := pipe_capital s3 l hnc
        rw [heq] at this
        exact this.trans hc
      split_ifs
      · rw [rp_profile]; exact h4
      · rw [fb_capital]; exact h4

theorem sr_hours (df : List Listing) (gen : Option String) (s3 : State) (l : List Char)
    (hi : Inv s3) (hv : String) (hh : s3.profile.hours = some hv) :
    (stepRest df gen s3 l).state.profile.hours = some hv := by
  have hnh : s3.stage ≠ "hours" := by
    intro hst
    rw [hi.2.2 hst] at hh
    cases hh
  unfold stepRest
  split
  · exact hh
  · split
    · rename_i s4 heq
      have := pipe_hours s3 l hnh
      rw [heq] at this
      exact this.trans hh
    · rename_i s4 heq
      have h4 : s4.profile.hours = some hv := by
        have := pipe_hours s3 l hnh
        rw [heq] at this
        exact this.trans hh
      split_ifs
      · rw [rp_profile]; exact h4
      · rw [fb_hours]; exact h4

theorem sr_size_kept (df : List Listing) (gen : Option String) (s3 : State) (l : List Char)
    (h : s3.stage ≠ "size") (v : String) (hv : s3.profile.size = some v) :
    (stepRest df gen s3 l).state.profile.size = some v := by
  unfold stepRest
  split
  · rename_i hcl
    exact absurd hcl.1 h
  · split
    · rename_i s4 heq
      have := pipe_size s3 l h
      rw [heq] at this
      exact this.trans hv
    · rename_i s4 heq
      have h4 : s4.profile.size = some v := by
        have := pipe_size s3 l h
        rw [heq] at this
        exact this.trans hv
      split_ifs
      · rw [rp_profile]; exact h4
      · exact fb_size_kept _ _ _ h4

theorem pipe_rapport_eq (s : State) (l : List Char) (h : s.stage = "rapport") :
    pipelineStep s l
      = .ok (appendBot
          { s with profile := { s.profile with interests := interestsOf l }, stage := "capital" }
          askCapital) := by
  unfold pipelineStep
  rw [if_pos h]

theorem pipe_capital_noMatch (s : State) (l : List Char) (h : s.stage = "capital")
    (hc : capitalExtract l = CapResult.noMatch) :
    pipelineStep s l = .ok (appendBot s retryCapital) := by
  unfold pipelineStep
  rw [if_neg (by rw [h]; exact capital_ne_rapport), if_pos h, hc]

theorem pipe_capital_ok (s : State) (l : List Char) (n : Nat) (h : s.stage = "capital")
    (hc : capitalExtract l = CapResult.ok n) :
    pipelineStep s l
      = .ok (appendBot
          { s with profile := { s.profile with capital := some n }, stage := "hours" }
          askHours) := by
  unfold pipelineStep
  rw [if_neg (by rw [h]; exact capital_ne_rapport), if_pos h, hc]

theorem pipe_capital_err (s : State) (l : List Char) (h : s.stage = "capital")
    (hc : capitalExtract l = CapResult.err) :
    pipelineStep s l = .exn s := by
  unfold pipelineStep
  rw [if_neg (by rw [h]; exact capital_ne_rapport), if_pos h, hc]

theorem pipe_size_some (s : State) (l : List Char) (v : String) (h : s.stage = "size")
    (hv : capture_size l = some v) :
    pipelineStep s l
      = .ok { s with profile := { s.profile with size := some v }, stage := "recommend" } := by
  unfold pipelineStep
  rw [if_neg (by rw [h]; exact size_ne_rapport), if_neg (by rw [h]; exact size_ne_capital),
    if_neg (by rw [h]; exact size_ne_hours), if_pos h, hv]

theorem pipe_size_none (s : State) (l : List Char) (h : s.stage = "size")
    (hv : capture_size l = none) :
    pipelineStep s l = .ok (appendBot s repromptSize) := by
  unfold pipelineStep
  rw [if_neg (by rw [h]; exact size_ne_rapport), if_neg (by rw [h]; exact size_ne_capital),
    if_neg (by rw [h]; exact size_ne_hours), if_pos h, hv]

theorem pipe_other_eq (s : State) (l : List Char) (h1 : s.stage ≠ "rapport")
    (h2 : s.stage ≠ "capital") (h3 : s.stage ≠ "hours") (h4 : s.stage ≠ "size") :
    pipelineStep s l = .ok s := by
  unfold pipelineStep
  rw [if_neg h1, if_neg h2, if_neg h3, if_neg h4]

theorem step_pipe_ok (df : List Listing) (gen : Option String) (s : State) (msg : String)
    (s4 : State)
    (hname : nameScanAux none (lowerChars msg) = none)
    (hfear : fearTrig (lowerChars msg) = false)
    (hnoclar : ¬(s.stage = "size" ∧ clarifierTrig (lowerChars msg)))
    (hp : pipelineStep { s with history := s.history ++ [(Role.user, msg)] } (lowerChars msg)
      = .ok s4) :
    step df gen s msg
      = if s4.stage = "recommend" then recommendPhase df gen s4
        else ⟨fallbackSize s4 (lowerChars msg), false⟩ := by
  rw [step_no_digression df gen s msg hname hfear hnoclar, hp]

theorem step_pipe_exn (df : List Listing) (gen : Option String) (s : State) (msg : String)
    (s4 : State)
    (hname : nameScanAux none (lowerChars msg) = none)
    (hfear : fearTrig (lowerChars msg) = false)
    (hnoclar : ¬(s.stage = "size" ∧ clarifierTrig (lowerChars msg)))
    (hp : pipelineStep { s with history := s.history ++ [(Role.user, msg)] } (lowerChars msg)
      = .exn s4) :
    step df gen s msg = ⟨s4, true⟩ := by
  rw [step_no_digression df gen s msg hname hfear hnoclar, hp]

/-! ## Claim C1 -/

set_option maxRecDepth 4000 in
/-- C1, counterexample: at the rapport stage the input `ok` has an empty
filtered token set, yet the turn still writes the (empty) interests list,
advances the stage to capital and asks the capital question instead of
re-prompting. -/
theorem rapport_advances_on_empty_tokens :
    interestsOf (lowerChars "ok") = []
    ∧ (step [] none initState "ok").state.stage = "capital"
    ∧ (step [] none initState "ok").state.profile.interests = []
    ∧ (step [] none initState "ok").state.history
        = initState.history ++ [(Role.user, "ok"), (Role.assistant, askCapital)] := by
  decide

/-- C1, amended: at the capital and size stages, a turn whose text fails
the stage's extractor and triggers no digression (no name capture, no
empathy keyword, no clarifier, no fallback size capture) leaves the
stage and the whole profile unchanged and appends exactly one re-prompt
message; the rapport stage, by contrast, never re-prompts (see the
counterexample). -/
theorem extractor_fail_reprompts (df : List Listing) (gen : Option String)
    (s : State) (msg : String)
    (hname : nameScanAux none (lowerChars msg) = none)
    (hfear : fearTrig (lowerChars msg) = false)
    (hclar : clarifierTrig (lowerChars msg) = false)
    (hcap : s.stage = "capital" → capitalExtract (lowerChars msg) = CapResult.noMatch)
    (hsize : s.stage = "size" → capture_size (lowerChars msg) = none)
    (hfb : s.profile.size = none → capture_size (lowerChars msg) = none)
    (hstage : s.stage = "capital" ∨ s.stage = "size") :
    (step df gen s msg).state.stage = s.stage
    ∧ (step df gen s msg).state.profile = s.profile
    ∧ (step df gen s msg).state.history
        = s.history ++ [(Role.user, msg),
            (Role.assistant, if s.stage = "capital" then retryCapital else repromptSize)]
    ∧ (step df gen s msg).raised = false := by
  rcases hstage with h | h
  · rw [step_pipe_ok df gen s msg _ hname hfear (by simp [hclar])
      (pipe_capital_noMatch { s with history := s.history ++ [(Role.user, msg)] } _ h (hcap h))]
    have hns : ¬((appendBot { s with history := s.history ++ [(Role.user, msg)] }
        retryCapital).stage = "recommend") := by
      show ¬(s.stage = "recommend")
      rw [h]
      exact capital_ne_recommend
    rw [if_neg hns]
    rw [fallback_noop (appendBot { s with history := s.history ++ [(Role.user, msg)] }
      retryCapital) _ hfb]
    exact ⟨rfl, rfl, by simp [appendBot, h, List.append_assoc], rfl⟩
  · rw [step_pipe_ok df gen s msg _ hname hfear (by simp [hclar])
      (pipe_size_none { s with history := s.history ++ [(Role.user, msg)] } _ h (hsize h))]
    have hns : ¬((appendBot { s with history := s.history ++ [(Role.user, msg)] }
        repromptSize).stage = "recommend") := by
      show ¬(s.stage = "recommend")
      rw [h]
      exact size_ne_recommend
    rw [if_neg hns]
    rw [fallback_noop (appendBot { s with history := s.history ++ [(Role.user, msg)] }
      repromptSize) _ hfb]
    refine ⟨rfl, rfl, ?_, rfl⟩
    have hnc : ¬(s.stage = "capital") := by
      rw [h]
      exact size_ne_capital
    rw [if_neg hnc]
    simp [appendBot, List.append_assoc]

/-- C1, witness: at the capital stage the reply `no idea` fails the
capital extractor and the turn only re-prompts. -/
theorem extractor_fail_reprompts_witness :
    (step [] none sCap "no idea").state.stage = sCap.stage
    ∧ (step [] none sCap "no idea").state.profile = sCap.profile
    ∧ (step [] none sCap "no idea").state.history
        = sCap.history ++ [(Role.user, "no idea"),
            (Role.assistant, if sCap.stage = "capital" then retryCapital else repromptSize)]
    ∧ (step [] none sCap "no idea").raised = false :=
  extractor_fail_reprompts [] none sCap "no idea" (by decide) (by decide) (by decide)
    (by decide) (by decide) (by decide) (Or.inl rfl)

/-! ## Claim C3 -/

/-- C3, counterexample: during a turn at the capital stage (not the size
stage), a failed capital extraction still lets the fallback capture write
the size field, so size is not written only by the size-stage step. -/
theorem size_written_off_size_stage :
    sCap.stage = "capital"
    ∧ sCap.profile.size = none
    ∧ (step [] none sCap "a small amount").state.stage = "capital"
    ∧ (step [] none sCap "a small amount").state.profile.size = some "small" := by
  decide

/-- C3, amended: over any turn, the stage is never again `rapport`, the
reachability invariant is preserved, and interests, capital, hours and a
nonempty name are never overwritten once set; the size field is only
guaranteed stable on turns that do not sit at the size stage, because the
fallback capture may first set it anywhere and the size-stage step may
later overwrite that value. -/
theorem profile_write_discipline (df : List Listing) (gen : Option String)
    (s : State) (msg : String) :
    (step df gen s msg).state.stage ≠ "rapport"
    ∧ (Inv s → Inv (step df gen s msg).state)
    ∧ (s.stage ≠ "rapport" →
        (step df gen s msg).state.profile.interests = s.profile.interests)
    ∧ (Inv s → ∀ c, s.profile.capital = some c →
        (step df gen s msg).state.profile.capital = some c)
    ∧ (Inv s → ∀ hv, s.profile.hours = some hv →
        (step df gen s msg).state.profile.hours = some hv)
    ∧ (∀ n, s.profile.name = some n → n.isEmpty = false →
        (step df gen s msg).state.profile.name = some n)
    ∧ (∀ v, s.stage ≠ "size" → s.profile.size = some v →
        (step df gen s msg).state.profile.size = some v) := by
  refine ⟨?_, ?_, ?_, ?_, ?_, ?_, ?_⟩
  · exact sr_ne_rapport df gen (digress s msg) _
  · intro hi
    exact sr_inv df gen (digress s msg) _ (dig_inv s msg hi)
  · intro h
    exact (sr_interests df gen (digress s msg) _
      (by rw [dig_stage]; exact h)).trans (dig_interests s msg)
  · intro hi c hc
    exact sr_capital df gen (digress s msg) _ (dig_inv s msg hi) c
      (by rw [dig_capital]; exact hc)
  · intro hi hv hh
    exact sr_hours df gen (digress s msg) _ (dig_inv s msg hi) hv
      (by rw [dig_hours]; exact hh)
  · intro n hn he
    exact (sr_name df gen (digress s msg) _).trans (dig_name_kept s msg n hn he)
  · intro v hsz hv
    exact sr_size_kept df gen (digress s msg) _
      (by rw [dig_stage]; exact hsz) v (by rw [dig_size]; exact hv)

/-- C3, witness: at the hours stage with name, interests and capital
already collected, a turn leaves all three intact and the stage is not
rapport. -/
theorem profile_write_discipline_witness :
    (step [] none sHours "mostly hands on").state.profile.capital = some 50000
    ∧ (step [] none sHours "mostly hands on").state.profile.name = some "Bob"
    ∧ (step [] none sHours "mostly hands on").state.profile.interests = ["coffee"]
    ∧ (step [] none sHours "mostly hands on").state.stage ≠ "rapport" :=
  ⟨(profile_write_discipline [] none sHours "mostly hands on").2.2.2.1
      (by decide) 50000 rfl,
    (profile_write_discipline [] none sHours "mostly hands on").2.2.2.2.2.1
      "Bob" rfl (by decide),
    ((profile_write_discipline [] none sHours "mostly hands on").2.2.1
      (by decide)).trans rfl,
    (profile_write_discipline [] none sHours "mostly hands on").1⟩

/-! ## Claim C4 -/

set_option maxRecDepth 8000 in
/-- C4: at the size stage, a question matching the
benefit/difference-small-large pattern triggers the clarifier, which
emits the two-part explanation plus the re-ask, leaves the stage at size,
and consumes the turn: even though the text contains the word `small`
(so the size extractor would have succeeded), the size field stays unset.
This is the behaviour of the script's evident intent; the literal
`continue` on that branch sits outside any loop and is a Python
`SyntaxError` at load time, which is the code bug this claim exposes. -/
theorem clarifier_consumes_turn :
    clarifierTrig (lowerChars "What is the difference between small and large franchises?") = true
    ∧ capture_size (lowerChars "What is the difference between small and large franchises?")
        = some "small"
    ∧ (step dfW none sSize "What is the difference between small and large franchises?")
        = ⟨{ sSize with history := sSize.history ++
              [(Role.user, "What is the difference between small and large franchises?"),
               (Role.assistant, explainMsg), (Role.assistant, followMsg)] }, false⟩ := by
  decide

/-! ## Claim C5 -/

set_option maxRecDepth 8000 in
/-- C5: the capital extractor is not total: on text whose first run of
digits-or-commas is a bare comma (here in `Well, maybe`), the monetary
pattern matches the comma alone, stripping commas leaves the empty
string, and `int` raises an uncaught `ValueError`, crashing the turn
instead of re-prompting. -/
theorem capital_extractor_raises :
    capitalExtract (lowerChars "Well, maybe") = CapResult.err
    ∧ (step [] none sCap "Well, maybe")
        = ⟨{ sCap with history := sCap.history ++ [(Role.user, "Well, maybe")] }, true⟩ := by
  decide

/-! ## Claim C6 -/

set_option maxRecDepth 8000 in
/-- C6, counterexample: completing the size stage over a dataset with a
matching row while the generation call fails leaves the turn aborted:
no fallback message is appended and the stage remains `recommend`, not
`done`. -/
theorem gen_failure_not_done :
    (step dfW none sSize "either").raised = true
    ∧ (step dfW none sSize "either").state.stage = "recommend"
    ∧ (step dfW none sSize "either").state.stage ≠ "done"
    ∧ (step dfW none sSize "either").state.history = [(Role.user, "either")] := by
  decide

/-- C6, amended: when the generation call raises during the recommend
phase, the turn aborts with the exception: no message is emitted and the
stage stays at `recommend` rather than advancing to `done`; the session
state persists, so a later turn with a successful generation call
completes the phase and advances to `done`. -/
theorem gen_failure_aborts_turn (df : List Listing) (s : State) (msg : String) (v : String)
    (hname : nameScanAux none (lowerChars msg) = none)
    (hfear : fearTrig (lowerChars msg) = false)
    (hclar : clarifierTrig (lowerChars msg) = false)
    (hstage : s.stage = "size")
    (hcapt : capture_size (lowerChars msg) = some v)
    (hrows : recommendRows { s.profile with size := some v } df ≠ []) :
    step df none s msg
      = ⟨{ s with
            history := s.history ++ [(Role.user, msg)],
            profile := { s.profile with size := some v }, stage := "recommend" }, true⟩
    ∧ ∀ txt, step df (some txt)
        { s with
          history := s.history ++ [(Role.user, msg)],
          profile := { s.profile with size := some v }, stage := "recommend" } msg
      = ⟨{ s with
            history := ((s.history ++ [(Role.user, msg)]) ++ [(Role.user, msg)])
              ++ [(Role.assistant, txt)],
            profile := { s.profile with size := some v }, stage := "done" }, false⟩ := by
  have hne : (recommendRows { s.profile with size := some v } df).isEmpty = false := by
    cases hrw : recommendRows { s.profile with size := some v } df with
    | nil => exact absurd hrw hrows
    | cons a t => rfl
  constructor
  · rw [step_pipe_ok df none s msg _ hname hfear (by simp [hclar])
      (pipe_size_some { s with history := s.history ++ [(Role.user, msg)] } _ v hstage hcapt)]
    rw [if_pos rfl]
    simp only [recommendPhase]
    rw [hne]
    rfl
  · intro txt
    rw [step_pipe_ok df (some txt)
      { s with
        history := s.history ++ [(Role.user, msg)],
        profile := { s.profile with size := some v }, stage := "recommend" } msg _
      hname hfear (by simp [hclar])
      (pipe_other_eq _ _ rec_ne_rapport rec_ne_capital rec_ne_hours rec_ne_size)]
    rw [if_pos rfl]
    simp only [recommendPhase]
    rw [hne]
    rfl

/-- C6, witness: the concrete size-completing turn with the sample
dataset, failing generation call. -/
theorem gen_failure_aborts_turn_witness :
    step dfW none sSize "either"
      = ⟨{ sSize with
            history := sSize.history ++ [(Role.user, "either")],
            profile := { sSize.profile with size := some "either" }, stage := "recommend" },
          true⟩ :=
  (gen_failure_aborts_turn dfW sSize "either" "either" (by decide) (by decide) (by decide)
    rfl (by decide) (by decide)).1

/-! ## Claim C7 -/

/-- C7: when the filtered row set is empty, the recommend block appends
exactly the fixed no-matches message, advances to `done`, does not raise,
and its result does not depend on the generation oracle at all, so no
generation call is consulted. -/
theorem empty_result_fixed_message (df : List Listing) (s : State)
    (h : recommendRows s.profile df = []) (gen gen' : Option String) :
    recommendPhase df gen s
      = ⟨{ s with
            history := s.history ++ [(Role.assistant, noMatchMsg)], stage := "done" },
          false⟩
    ∧ recommendPhase df gen s = recommendPhase df gen' s := by
  have e : ∀ g : Option String, recommendPhase df g s
      = ⟨{ s with
            history := s.history ++ [(Role.assistant, noMatchMsg)], stage := "done" },
          false⟩ := by
    intro g
    simp only [recommendPhase]
    rw [h]
    rfl
  exact ⟨e gen, (e gen).trans (e gen').symm⟩

/-- C7, witness: the spec's empty-result scenario: capital of five
thousand against rows requiring forty and eighty thousand. -/
theorem empty_result_fixed_message_witness :
    recommendPhase dfW (some "anything") sTight
      = ⟨{ sTight with
            history := sTight.history ++ [(Role.assistant, noMatchMsg)],
            stage := "done" }, false⟩
    ∧ recommendPhase dfW (some "anything") sTight = recommendPhase dfW none sTight :=
  empty_result_fixed_message dfW sTight (by decide) (some "anything") none

/-! ## Claim C10 -/

/-- C10: a stated budget of exactly zero is captured (capital is set to
zero and the stage advances to hours), but Python truthiness makes the
zero capital deactivate the capital clause of the recommendation filter,
so it behaves as no budget constraint at all. -/
theorem zero_capital_no_constraint (p : Profile) (df : List Listing) :
    (step [] none sCap "$0").state.profile.capital = some 0
    ∧ (step [] none sCap "$0").state.stage = "hours"
    ∧ activeClauses { p with capital := some 0 } = activeClauses { p with capital := none }
    ∧ recommendRows { p with capital := some 0 } df
        = recommendRows { p with capital := none } df := by
  refine ⟨by decide, by decide, rfl, rfl⟩

/-! ## Claim C2 -/

theorem applyClauses_eq_filter (cs : List (Listing → Bool)) (l : List Listing) :
    applyClauses cs l = l.filter (fun r => cs.all (fun c => c r)) := by
  induction cs generalizing l with
  | nil => simp [applyClauses]
  | cons c cs ih =>
    have h1 : applyClauses (c :: cs) l = applyClauses cs (l.filter c) := rfl
    rw [h1, ih, List.filter_filter]
    exact List.filter_congr (fun a _ => by simp [List.all_cons, Bool.and_comm])

theorem all_of_perm {α : Type} {cs cs' : List α} (h : List.Perm cs cs') (f : α → Bool) :
    cs.all f = cs'.all f := by
  induction h with
  | nil => rfl
  | cons x _ ih => simp [List.all_cons, ih]
  | swap x y l => simp [List.all_cons, Bool.and_left_comm]
  | trans _ _ ih1 ih2 => rw [ih1, ih2]

/-- C2: the recommendation filter returns a sublist of the dataset (so
result rows appear in the dataset's natural order), holds at most
`TOP_K = 6` rows, every returned row satisfies every active clause, and
applying the active clauses in any permuted order yields the same
result. -/
theorem recommend_filter_spec (p : Profile) (df : List Listing)
    (cs : List (Listing → Bool)) (hperm : List.Perm cs (activeClauses p)) :
    List.Sublist (recommendRows p df) df
    ∧ (recommendRows p df).length ≤ TOP_K
    ∧ (∀ r ∈ recommendRows p df, ∀ c ∈ activeClauses p, c r = true)
    ∧ (applyClauses cs df).take TOP_K = recommendRows p df := by
  refine ⟨?_, ?_, ?_, ?_⟩
  · unfold recommendRows filterListings
    rw [applyClauses_eq_filter]
    exact (List.take_sublist _ _).trans (List.filter_sublist _)
  · exact List.length_take_le _ _
  · intro r hr c hc
    unfold recommendRows filterListings at hr
    rw [applyClauses_eq_filter] at hr
    have hr2 := List.mem_of_mem_take hr
    have hall := List.of_mem_filter hr2
    exact List.all_eq_true.mp hall c hc
  · unfold recommendRows filterListings
    rw [applyClauses_eq_filter, applyClauses_eq_filter]
    congr 1
    exact List.filter_congr (fun a _ => all_of_perm hperm _)

/-- C2, witness: with the coffee profile (active interests and capital
clauses) over the sample dataset, applying the two clauses in swapped
order gives the same capped result, which has at most six rows. -/
theorem recommend_filter_spec_witness :
    (applyClauses [capClause 50000, interestClause ["coffee"]] dfW).take TOP_K
      = recommendRows pCoffee dfW
    ∧ (recommendRows pCoffee dfW).length ≤ TOP_K := by
  have hact : activeClauses pCoffee = [interestClause ["coffee"], capClause 50000] := rfl
  have hperm : List.Perm [capClause 50000, interestClause ["coffee"]] (activeClauses pCoffee) := by
    rw [hact]
    exact List.Perm.swap (interestClause ["coffee"]) (capClause 50000) []
  exact ⟨(recommend_filter_spec pCoffee dfW _ hperm).2.2.2,
    (recommend_filter_spec pCoffee dfW _ hperm).2.1⟩

/-! ## Claim C8 -/

theorem exists_of_subSearch (w : List Char) :
    ∀ l : List Char, subSearch w l = true → ∃ s t, l = s ++ (w ++ t) := by
  intro l
  induction l with
  | nil =>
    intro h
    simp only [subSearch, List.isEmpty_iff] at h
    exact ⟨[], [], by simp [h]⟩
  | cons c cs ih =>
    intro h
    simp only [subSearch, Bool.or_eq_true] at h
    rcases h with h | h
    · obtain ⟨t, ht⟩ := List.isPrefixOf_iff_prefix.mp h
      exact ⟨[], t, by simp [ht]⟩
    · obtain ⟨s, t, hst⟩ := ih h
      exact ⟨c :: s, t, by rw [hst]; rfl⟩

theorem ltFive_append (s t : List Char) : ltFiveSearch (s ++ '<' :: '5' :: t) = true := by
  induction s with
  | nil => rfl
  | cons c cs ih => simp [ltFiveSearch, ih]

theorem fiveHours_append (s t : List Char) :
    fiveHoursSearch
      (s ++ 'f' :: 'i' :: 'v' :: 'e' :: ' ' :: 'h' :: 'o' :: 'u' :: 'r' :: 's' :: t) = true := by
  induction s with
  | nil =>
    simp [fiveHoursSearch, show "five".toList = ['f', 'i', 'v', 'e'] from rfl,
      show "hours".toList = ['h', 'o', 'u', 'r', 's'] from rfl,
      List.isPrefixOf, List.dropWhile, isPySpace]
  | cons c cs ih => simp [fiveHoursSearch, ih]

theorem ltFive_of_strHas (l : List Char) (h : strHas "<5" l = true) :
    ltFiveSearch l = true := by
  obtain ⟨s, t, rfl⟩ := exists_of_subSearch _ l h
  exact ltFive_append s t

theorem fiveHours_of_strHas (l : List Char) (h : strHas "five hours" l = true) :
    fiveHoursSearch l = true := by
  obtain ⟨s, t, rfl⟩ := exists_of_subSearch _ l h
  exact fiveHours_append s t

/-- C8: the hours extractor is total on non-empty text, returning exactly
one of owner, semi or passive; the semi triggers (the word `semi`, the
`10-20` range marker, `part-time`) force semi; with no semi trigger the
passive triggers (`passive`, `<5`, `five hours`) force passive; and with
no trigger at all the result defaults to owner. -/
theorem hours_extractor_total (l : List Char) (hne : l ≠ []) :
    (hoursOf l = "owner" ∨ hoursOf l = "semi" ∨ hoursOf l = "passive")
    ∧ (semiTrig l = true → hoursOf l = "semi")
    ∧ (semiTrig l = false → passiveTrig l = true → hoursOf l = "passive")
    ∧ (semiTrig l = false → passiveTrig l = false → hoursOf l = "owner")
    ∧ (strHas "semi" l = true → hoursOf l = "semi")
    ∧ (strHas "10-20" l = true → hoursOf l = "semi")
    ∧ (strHas "part-time" l = true → hoursOf l = "semi")
    ∧ (semiTrig l = false → strHas "passive" l = true → hoursOf l = "passive")
    ∧ (semiTrig l = false → strHas "<5" l = true → hoursOf l = "passive")
    ∧ (semiTrig l = false → strHas "five hours" l = true → hoursOf l = "passive") := by
  refine ⟨?_, ?_, ?_, ?_, ?_, ?_, ?_, ?_, ?_, ?_⟩
  · cases h1 : semiTrig l <;> cases h2 : passiveTrig l <;> simp [hoursOf, h1, h2]
  · intro h
    simp [hoursOf, h]
  · intro h1 h2
    simp [hoursOf, h1, h2]
  · intro h1 h2
    simp [hoursOf, h1, h2]
  · intro h
    simp [hoursOf, semiTrig, h]
  · intro h
    simp [hoursOf, semiTrig, h]
  · intro h
    simp [hoursOf, semiTrig, h]
  · intro h1 h2
    simp [hoursOf, h1, passiveTrig, h2]
  · intro h1 h2
    simp [hoursOf, h1, passiveTrig, ltFive_of_strHas l h2]
  · intro h1 h2
    simp [hoursOf, h1, passiveTrig, fiveHours_of_strHas l h2]

/-- C8, witness: the reply `Semi please` is non-empty and classifies as
semi. -/
theorem hours_extractor_total_witness :
    hoursOf (lowerChars "Semi please") = "semi" :=
  (hours_extractor_total (lowerChars "Semi please") (by decide)).2.1 (by decide)

/-! ## Claim C9 -/

theorem moneyDigits_mem (s : String) (c : Char) (h : c ∈ moneyDigits s) :
    c.isDigit = true ∨ c = '.' := by
  unfold moneyDigits at h
  have h2 := (List.mem_filter.mp h).2
  simp only [Bool.or_eq_true, decide_eq_true_eq] at h2
  exact h2

/-- C9, counterexample: a value whose digit-and-dot residue has two
decimal points is unparseable, but `money` raises an uncaught
`ValueError` from `float` instead of returning `N/A`. -/
theorem money_unparseable_raises :
    money "v1.2.3" = MoneyRes.raised ∧ money "v1.2.3" ≠ MoneyRes.val "N/A" := by
  decide

/-- C9, amended: `money` returns `N/A` on an empty residue or a zero
value, renders a dollar amount with thousands separators and no decimal
places otherwise, and raises exactly on residues `float` cannot parse —
two or more decimal points, or a single decimal point with no digits —
instead of returning `N/A` for them. -/
theorem money_spec :
    money "" = MoneyRes.val "N/A"
    ∧ money "0" = MoneyRes.val "N/A"
    ∧ money "$45,000 +" = MoneyRes.val "$45,000"
    ∧ (∀ s : String, moneyDigits s = [] → money s = MoneyRes.val "N/A")
    ∧ (∀ s : String, ∀ n k : Nat, pyFloatParts (moneyDigits s) = some (n, k) → n = 0 →
        money s = MoneyRes.val "N/A")
    ∧ (∀ s : String, ∀ n k : Nat, pyFloatParts (moneyDigits s) = some (n, k) → n ≠ 0 →
        money s = MoneyRes.val ("$" ++ withCommas (roundHalfEven n k)))
    ∧ (∀ s : String, money s = MoneyRes.raised ↔
        (2 ≤ (moneyDigits s).count '.'
          ∨ ((moneyDigits s).count '.' = 1 ∧ ∀ c ∈ moneyDigits s, c.isDigit = false))) := by
  refine ⟨by decide, by decide, by decide, ?_, ?_, ?_, ?_⟩
  · intro s h
    simp only [money]
    rw [h]
    rfl
  · intro s n k hp h0
    have hne : (moneyDigits s).isEmpty = false := by
      cases hnum : moneyDigits s with
      | nil =>
        rw [hnum] at hp
        simp [pyFloatParts] at hp
      | cons a t => rfl
    simp only [money]
    rw [hne]
    simp only [Bool.false_eq_true, if_false]
    simp only [hp]
    rw [if_pos h0]
  · intro s n k hp h0
    have hne : (moneyDigits s).isEmpty = false := by
      cases hnum : moneyDigits s with
      | nil =>
        rw [hnum] at hp
        simp [pyFloatParts] at hp
      | cons a t => rfl
    simp only [money]
    rw [hne]
    simp only [Bool.false_eq_true, if_false]
    simp only [hp]
    rw [if_neg h0]
  · intro s
    constructor
    · intro h
      cases hb : (moneyDigits s).isEmpty with
      | true =>
        simp only [money] at h
        rw [hb] at h
        simp at h
      | false =>
        rcases hp : pyFloatParts (moneyDigits s) with _ | nk
        · simp only [pyFloatParts] at hp
          by_cases hcnt : 1 < (moneyDigits s).count '.'
          · exact Or.inl hcnt
          · rw [if_neg hcnt] at hp
            have hds : (moneyDigits s).filter (fun c => c ≠ '.') = [] := by
              by_contra hds
              rw [if_neg (by simpa [List.isEmpty_iff] using hds)] at hp
              exact Option.noConfusion hp
            have hall : ∀ c ∈ moneyDigits s, c = '.' := by
              intro c hc
              have h5 := List.filter_eq_nil_iff.mp hds c hc
              simpa using h5
            have hmem : '.' ∈ moneyDigits s := by
              cases hnum : moneyDigits s with
              | nil =>
                rw [hnum] at hb
                exact Bool.noConfusion hb
              | cons a t =>
                have ha := hall a (by rw [hnum]; exact List.mem_cons_self a t)
                rw [← ha]
                exact List.mem_cons_self a t
            have hpos : 0 < (moneyDigits s).count '.' := List.count_pos_iff.mpr hmem
            refine Or.inr ⟨by omega, ?_⟩
            intro c hc
            rw [hall c hc]
            rfl
        · simp only [money] at h
          rw [hb] at h
          simp only [Bool.false_eq_true, if_false] at h
          rw [hp] at h
          dsimp only at h
          split at h
          · exact MoneyRes.noConfusion h
          · exact MoneyRes.noConfusion h
    · intro h
      have hposc : 0 < (moneyDigits s).count '.' := by
        rcases h with h2 | ⟨h1, _⟩
        · omega
        · omega
      have hmem : '.' ∈ moneyDigits s := List.count_pos_iff.mp hposc
      have hne : (moneyDigits s).isEmpty = false := by
        cases hnum : moneyDigits s with
        | nil =>
          rw [hnum] at hmem
          cases hmem
        | cons a t => rfl
      have hpnone : pyFloatParts (moneyDigits s) = none := by
        simp only [pyFloatParts]
        rcases h with h2 | ⟨h1, hd⟩
        · rw [if_pos (by omega)]
        · rw [if_neg (by omega)]
          have hds : (moneyDigits s).filter (fun c => c ≠ '.') = [] := by
            refine List.filter_eq_nil_iff.mpr ?_
            intro c hc
            rcases moneyDigits_mem s c hc with hdig | hdot
            · rw [hd c hc] at hdig
              exact Bool.noConfusion hdig
            · simp [hdot]
          rw [hds]
          rfl
      simp only [money]
      rw [hne]
      simp only [Bool.false_eq_true, if_false]
      rw [hpnone]

/-- C9, witness: a value whose residue parses to exactly zero renders as
`N/A`. -/
theorem money_spec_witness :
    money "zero 0.0 dollars" = MoneyRes.val "N/A" :=
  (money_spec).2.2.2.2.1 "zero 0.0 dollars" 0 1 (by decide) rfl

end Companion
